import Mathlib

/-!
Verification development for the pet-registration intake application.

The embedding follows the request handler `index` in app.py together with the
form and model classes the repository ships.  Flask session state, the
SQLAlchemy-backed store and a single form submission are modelled as explicit
values; one call of the POST branch of `index` becomes the function `submit`.
-/

namespace PetApp

/-- Owner snapshot held in the Flask session under the key owner_data
(app.py lines 106-111). -/
structure OwnerData where
  name : String
  email : String
  phone : String
  postal_code : String
deriving DecidableEq

/-- A persisted row of the pet_owner table (app.py lines 18-25).  The
created_at timestamp plays no part in any claim and is omitted. -/
structure OwnerRow where
  id : Nat
  name : String
  email : String
  phone : String
  postal_code : String
deriving DecidableEq

/-- A persisted row of the pet table (app.py lines 28-37). -/
structure PetRow where
  id : Nat
  pet_type : String
  sex : String
  age : Int
  location_type : String
  microchipped : Bool
  pet_number : Int
  owner_id : Nat
deriving DecidableEq

/-- The relational store: both tables plus the autoincrement counters that
supply generated primary keys. -/
structure Db where
  owners : List OwnerRow
  pets : List PetRow
  nextOwnerId : Nat
  nextPetId : Nat
deriving DecidableEq

/-- A freshly created database (db.create_all on an empty file). -/
def emptyDb : Db := ⟨[], [], 1, 1⟩

/-- The per-client Flask session (app.py lines 92-97): owner snapshot
(owner_data, none models the empty dict), committed pet numbers
(added_pets), declared total (total_pets) and the recorded owner id
(owner_id, none models an absent key). -/
structure Session where
  owner_data : Option OwnerData
  added_pets : List Int
  total_pets : Int
  owner_id : Option Nat
deriving DecidableEq

/-- Session contents after initialisation or after the full clear of
app.py lines 171-175. -/
def emptySession : Session := ⟨none, [], 0, none⟩

/-- One POST of the form: owner fields, number-of-pets selector, the
optional pet fields (none models a field missing from the form data) and
the hidden current_pet_number input (app.py line 102). -/
structure SubmitRequest where
  name : String
  email : String
  phone : String
  postal_code : String
  num_pets : Int
  pet_type : Option String
  sex : Option String
  age : Option Int
  location_type : Option String
  microchipped : Bool
  current_pet_number : Int
deriving DecidableEq

/-- The wtforms DataRequired validator on a string field: fails on a
falsy value or a whitespace-only string (the empty string is
whitespace-only). -/
def dataRequired (s : String) : Bool :=
  !(s.data.all (fun c => c.isWhitespace))

/-- The wtforms Length(min, max) validator. -/
def lengthBetween (lo hi : Nat) (s : String) : Bool :=
  decide (lo ≤ s.length) && decide (s.length ≤ hi)

/-- Modelled from the spec: the email field must have an RFC-basic shape
— exactly one at-sign, splitting a non-empty local part from a non-empty
domain that contains a dot; the Email validator itself is a third-party
collaborator whose code is not part of this repository. -/
def emailBasicShape (s : String) : Bool :=
  let lp := s.data.takeWhile (fun c => !(c == '@'))
  match s.data.dropWhile (fun c => !(c == '@')) with
  | [] => false
  | _ :: dom =>
    !(lp.isEmpty) && !(dom.isEmpty) && !(dom.contains '@') && dom.contains '.'

/-- A SelectField with the Optional validator: an absent field passes, a
submitted value must be one of the configured choices. -/
def selectValid (choices : List String) : Option String → Bool
  | none => true
  | some v => choices.contains v

/-- The age field: Optional plus NumberRange(min 0, max 30)
(app.py lines 74-76). -/
def ageValid : Option Int → Bool
  | none => true
  | some a => decide (0 ≤ a) && decide (a ≤ 30)

/-- The choice values of the num_pets selector (app.py lines 49-61). -/
def numPetsChoices : List Int := [0, 1, 2, 3, 4, 5]

/-- form.validate_on_submit for the form class defined inline in app.py
(lines 41-84): owner fields carry DataRequired, Length and the email
shape check; num_pets is only checked against its choices (no
DataRequired there); the pet fields are Optional with choice and range
checks. -/
def form_validate_app (r : SubmitRequest) : Bool :=
  dataRequired r.name && lengthBetween 2 100 r.name &&
  dataRequired r.email && emailBasicShape r.email &&
  dataRequired r.phone && lengthBetween 10 20 r.phone &&
  dataRequired r.postal_code && lengthBetween 3 10 r.postal_code &&
  numPetsChoices.contains r.num_pets &&
  selectValid [("" : String), "cat", "dog"] r.pet_type &&
  selectValid [("" : String), "male", "female"] r.sex &&
  ageValid r.age &&
  selectValid [("" : String), "city", "rural"] r.location_type

/-- The num_pets field of forms/pet_owner_form.py (lines 97-113): same
choices but additionally DataRequired, which rejects the falsy value 0. -/
def num_pets_valid_pet_owner_form (n : Int) : Bool :=
  numPetsChoices.contains n && n != 0

/-- Python truthiness of an optional string field value: None and the
empty string are falsy. -/
def optStrTruthy : Option String → Bool
  | none => false
  | some s => s != ""

/-- The inline completeness check of app.py lines 115-120: pet_type and
sex are tested for truthiness, but age and location_type only for being
non-None. -/
def appPetComplete (r : SubmitRequest) : Bool :=
  optStrTruthy r.pet_type && optStrTruthy r.sex &&
  r.age.isSome && r.location_type.isSome

/-- A dynamically typed Python value as it appears in the pet_fields list
of PetOwnerForm.validate_pet_information. -/
inductive PyVal where
  | vnone
  | vstr (s : String)
  | vint (n : Int)
deriving DecidableEq

/-- The generator filter of validate_pet_information: the value is not
None and not equal to the empty string (an int never equals a string in
Python 3). -/
def PyVal.keptByFilter : PyVal → Bool
  | .vnone => false
  | .vstr s => s != ""
  | .vint _ => true

/-- Python truthiness of such a value: None, the empty string and 0 are
falsy. -/
def PyVal.truthy : PyVal → Bool
  | .vnone => false
  | .vstr s => s != ""
  | .vint n => n != 0

/-- The pet_fields list of forms/pet_owner_form.py line 180. -/
def petFieldVals (r : SubmitRequest) : List PyVal :=
  [ (match r.pet_type with | none => .vnone | some s => .vstr s),
    (match r.sex with | none => .vnone | some s => .vstr s),
    (match r.age with | none => .vnone | some a => .vint a),
    (match r.location_type with | none => .vnone | some s => .vstr s) ]

/-- PetOwnerForm.validate_pet_information (forms/pet_owner_form.py lines
168-191): if any filtered pet field is truthy, every filtered pet field
must be truthy. -/
def validate_pet_information (r : SubmitRequest) : Bool :=
  let pet_fields := petFieldVals r
  let has_pet_data := (pet_fields.filter PyVal.keptByFilter).any PyVal.truthy
  if has_pet_data then
    (pet_fields.filter PyVal.keptByFilter).all PyVal.truthy
  else
    true

/-- The pet dictionary built by PetOwnerForm.get_pet_data. -/
structure PetData where
  pet_type : Option String
  sex : Option String
  age : Option Int
  location_type : Option String
  microchipped : Bool
deriving DecidableEq

/-- PetOwnerForm.get_pet_data (forms/pet_owner_form.py lines 208-224):
none models the empty dictionary returned when validate_pet_information
fails. -/
def get_pet_data (r : SubmitRequest) : Option PetData :=
  if validate_pet_information r then
    some ⟨r.pet_type, r.sex, r.age, r.location_type, r.microchipped⟩
  else
    none

/-- The user-visible outcome of one POST of the form. -/
inductive SubmitResult where
  | formErrors
  | duplicate (n : Int)
  | incomplete
  | added (k : Nat) (total : Int)
  | complete
  | dbError
deriving DecidableEq

/-- Result of one request: the session written back to the client, the
database, and the signalled outcome. -/
structure Outcome where
  sess : Session
  db : Db
  res : SubmitResult
deriving DecidableEq

/-- Owner-snapshot capture (app.py lines 104-112): on the first
submission of a session the owner fields and the declared total are
written into the session; later submissions leave both untouched. -/
def captureOwner (s : Session) (r : SubmitRequest) : Session :=
  if s.owner_data.isNone then
    { s with owner_data := some ⟨r.name, r.email, r.phone, r.postal_code⟩,
             total_pets := r.num_pets }
  else s

/-- Owner create-or-lookup (app.py lines 129-142): on the first dependent
of the session the Owner row is built from the session snapshot and
flushed, its generated id being recorded in the session; otherwise the
Owner is fetched by the recorded id.  none models the paths that raise
inside the try block (snapshot unexpectedly empty, owner_id key missing,
lookup returning no row). -/
def resolveOwner (s1 : Session) (db : Db) : Option (Nat × Session × Db) :=
  if s1.added_pets = [] then
    match s1.owner_data with
    | some od =>
      some (db.nextOwnerId,
        { s1 with owner_id := some db.nextOwnerId },
        { db with
            owners := db.owners ++
              [⟨db.nextOwnerId, od.name, od.email, od.phone, od.postal_code⟩],
            nextOwnerId := db.nextOwnerId + 1 })
    | none => none
  else
    match s1.owner_id with
    | none => none
    | some oid =>
      match db.owners.find? (fun ow => ow.id == oid) with
      | none => none
      | some ow => some (ow.id, s1, db)

/-- The Pet row built at app.py lines 145-153. -/
def petRowFor (db1 : Db) (r : SubmitRequest) (oid : Nat) : PetRow :=
  ⟨db1.nextPetId, r.pet_type.getD (""), r.sex.getD (""),
    r.age.getD 0, r.location_type.getD (""), r.microchipped,
    r.current_pet_number, oid⟩

/-- The POST branch of `index` (app.py lines 99-209).  faultAtCommit
injects a persistence failure at db.session.commit (line 155): the
transaction, including the flushed Owner insert, is rolled back, while
session mutations already performed survive.  The dbError outcome covers
every path through the except handler of lines 187-193. -/
def submit (faultAtCommit : Bool) (s : Session) (db : Db) (r : SubmitRequest) : Outcome :=
  if form_validate_app r then
    let cpn := r.current_pet_number
    let s1 := captureOwner s r
    if appPetComplete r then
      if cpn ∈ s1.added_pets then
        ⟨s1, db, .duplicate cpn⟩
      else
        match resolveOwner s1 db with
        | none => ⟨s1, db, .dbError⟩
        | some (oid, s2, db1) =>
          if faultAtCommit then
            ⟨s2, db, .dbError⟩
          else
            let db2 := { db1 with pets := db1.pets ++ [petRowFor db1 r oid],
                                  nextPetId := db1.nextPetId + 1 }
            let s3 := { s2 with added_pets := s2.added_pets ++ [cpn] }
            if (s3.added_pets.length : Int) = s3.total_pets then
              ⟨emptySession, db2, .complete⟩
            else
              ⟨s3, db2, .added s3.added_pets.length s3.total_pets⟩
    else
      ⟨s1, db, .incomplete⟩
  else
    ⟨s, db, .formErrors⟩

/-- The reset route (app.py lines 233-238): session.clear. -/
def resetSession (_s : Session) : Session := emptySession

/-- Run a sequence of fault-free submits, returning the state after the
last one together with its signalled outcome. -/
def runSubmits (s : Session) (db : Db) : List SubmitRequest → Outcome
  | [] => ⟨s, db, .formErrors⟩
  | r :: rs =>
    match rs with
    | [] => submit false s db r
    | _ :: _ => runSubmits (submit false s db r).sess (submit false s db r).db rs

/-- The pet numbers of the Pet rows linked to a given owner id. -/
def petNumbersL (pets : List PetRow) (oid : Nat) : List Int :=
  (pets.filter (fun p => p.owner_id == oid)).map (fun p => p.pet_number)

/-- The pet numbers of a given owner in the store. -/
def petNumbersOf (db : Db) (oid : Nat) : List Int := petNumbersL db.pets oid

/-- States of one client session together with the store, as reachable
from a fresh application by requests (with or without persistence
faults) and session resets. -/
inductive Reachable : Session → Db → Prop where
  | init : Reachable emptySession emptyDb
  | step (f : Bool) (r : SubmitRequest) {s : Session} {db : Db} :
      Reachable s db → Reachable (submit f s db r).sess (submit f s db r).db
  | reset {s : Session} {db : Db} : Reachable s db → Reachable (resetSession s) db

/-- The invariant maintained by every request: committed pet numbers are
pairwise distinct, per-owner pet numbers in the store are pairwise
distinct, a session with committed pets holds an owner snapshot and its
recorded owner's stored pet numbers are all committed, and generated ids
are fresh. -/
structure Inv (s : Session) (db : Db) : Prop where
  nodupAdded : s.added_pets.Nodup
  nodupDb : ∀ oid, (petNumbersOf db oid).Nodup
  ownerCaptured : s.added_pets ≠ [] → s.owner_data.isSome
  linkSub : ∀ oid, s.added_pets ≠ [] → s.owner_id = some oid →
    ∀ m ∈ petNumbersOf db oid, m ∈ s.added_pets
  petsFresh : ∀ p ∈ db.pets, p.owner_id < db.nextOwnerId
  ownersFresh : ∀ ow ∈ db.owners, ow.id < db.nextOwnerId

/-- Outcome of deleting an Owner row through the ORM. -/
inductive DeleteOutcome where
  | ok (db : Db)
  | error
deriving DecidableEq

/-- Deleting an Owner under a given relationship configuration.  With
cascade all, delete-orphan (models/pet_owner_model.py lines 100-102) the
ORM deletes the owner's Pet rows with it.  Without a delete cascade
(app.py line 25) the ORM instead nullifies the children's owner_id on
flush; Pet.owner_id is declared NOT NULL (nullable=False), so the flush
fails and the transaction leaves the store unchanged. -/
def deleteOwner (cascadeDeleteOrphan : Bool) (db : Db) (oid : Nat) : DeleteOutcome :=
  if cascadeDeleteOrphan then
    .ok { db with owners := db.owners.filter (fun ow => !(ow.id == oid)),
                  pets := db.pets.filter (fun p => !(p.owner_id == oid)) }
  else
    if db.pets.any (fun p => p.owner_id == oid) then
      .error
    else
      .ok { db with owners := db.owners.filter (fun ow => !(ow.id == oid)) }

/-- app.py line 25: the pets relationship is declared without any cascade
option. -/
def appPetsCascadeDeleteOrphan : Bool := false

/-- models/pet_owner_model.py lines 100-102: the pets relationship is
declared with cascade all, delete-orphan. -/
def modelPetsCascadeDeleteOrphan : Bool := true

/-! Concrete values used in witnesses and counterexamples. -/

/-- A store holding one Owner with one linked Pet row. -/
def dbOnePet : Db :=
  ⟨[⟨1, "Jo", "a@b.co", "0123456789", "ABC"⟩],
   [⟨1, "cat", "male", 2, "city", false, 1, 1⟩], 2, 2⟩

/-- A fully valid submission: declared total np, pet number cpn. -/
def reqValid (np cpn : Int) : SubmitRequest :=
  ⟨"Jo", "a@b.co", "0123456789", "ABC", np, some ("cat"), some ("male"),
    some 2, some ("city"), false, cpn⟩

/-- Valid owner fields, no pet fields at all. -/
def reqIncomplete : SubmitRequest :=
  ⟨"Jo", "a@b.co", "0123456789", "ABC", 2, none, none, none, none, false, 1⟩

/-- Valid owner fields and pet fields except that the location selector
is submitted at its empty placeholder value. -/
def reqEmptyLocation : SubmitRequest :=
  ⟨"Jo", "a@b.co", "0123456789", "ABC", 2, some ("cat"), some ("male"),
    some 2, some (""), false, 1⟩

/-- Valid owner fields with the number-of-pets selector left at 0. -/
def reqZeroTotal : SubmitRequest :=
  ⟨"Jo", "a@b.co", "0123456789", "ABC", 0, none, none, none, none, false, 1⟩

/-- Valid owner and pet fields with age equal to 0. -/
def reqAgeZero : SubmitRequest :=
  ⟨"Jo", "a@b.co", "0123456789", "ABC", 2, some ("cat"), some ("male"),
    some 0, some ("city"), false, 1⟩

/-! Basic facts about the capture and owner-resolution steps. -/

theorem captureOwner_added (s : Session) (r : SubmitRequest) :
    (captureOwner s r).added_pets = s.added_pets := by
  unfold captureOwner; split <;> rfl

theorem captureOwner_ownerId (s : Session) (r : SubmitRequest) :
    (captureOwner s r).owner_id = s.owner_id := by
  unfold captureOwner; split <;> rfl

theorem captureOwner_isSome (s : Session) (r : SubmitRequest) :
    (captureOwner s r).owner_data.isSome = true := by
  unfold captureOwner
  cases h : s.owner_data <;> simp [h]

theorem captureOwner_of_some (s : Session) (r : SubmitRequest)
    (h : s.owner_data.isSome = true) : captureOwner s r = s := by
  unfold captureOwner
  cases hh : s.owner_data
  · rw [hh] at h; simp at h
  · simp [hh]

theorem captureOwner_of_none (s : Session) (r : SubmitRequest)
    (h : s.owner_data = none) :
    captureOwner s r =
      { s with owner_data := some ⟨r.name, r.email, r.phone, r.postal_code⟩,
               total_pets := r.num_pets } := by
  unfold captureOwner
  simp [h]

/-- Characterisation of a successful owner create-or-lookup. -/
theorem resolveOwner_spec (s1 : Session) (db : Db) (oid : Nat)
    (s2 : Session) (db1 : Db)
    (h : resolveOwner s1 db = some (oid, s2, db1)) :
    (s1.added_pets = [] ∧ ∃ od, s1.owner_data = some od ∧
      oid = db.nextOwnerId ∧
      s2 = { s1 with owner_id := some db.nextOwnerId } ∧
      db1 = { db with
        owners := db.owners ++
          [⟨db.nextOwnerId, od.name, od.email, od.phone, od.postal_code⟩],
        nextOwnerId := db.nextOwnerId + 1 })
    ∨ (s1.added_pets ≠ [] ∧ s2 = s1 ∧ db1 = db ∧ s1.owner_id = some oid ∧
      ∃ ow0, ow0 ∈ db.owners ∧ ow0.id = oid) := by
  unfold resolveOwner at h
  split at h
  · rename_i he
    split at h
    · rename_i od hod
      simp only [Option.some.injEq, Prod.mk.injEq] at h
      exact Or.inl ⟨he, od, hod, h.1.symm, h.2.1.symm, h.2.2.symm⟩
    · exact absurd h (by simp)
  · rename_i he
    split at h
    · exact absurd h (by simp)
    · rename_i oid0 hoid
      split at h
      · exact absurd h (by simp)
      · rename_i ow hfind
        simp only [Option.some.injEq, Prod.mk.injEq] at h
        have hmem := List.mem_of_find?_eq_some hfind
        have hid : ow.id = oid0 := by
          have := List.find?_some hfind
          simpa using this
        refine Or.inr ⟨he, h.2.1.symm, h.2.2.symm, ?_, ow, hmem, ?_⟩
        · rw [hoid, ← h.1, hid]
        · rw [← h.1]

theorem resolveOwner_create (s1 : Session) (db : Db) (od : OwnerData)
    (ha : s1.added_pets = []) (ho : s1.owner_data = some od) :
    resolveOwner s1 db = some (db.nextOwnerId,
      { s1 with owner_id := some db.nextOwnerId },
      { db with
          owners := db.owners ++
            [⟨db.nextOwnerId, od.name, od.email, od.phone, od.postal_code⟩],
          nextOwnerId := db.nextOwnerId + 1 }) := by
  unfold resolveOwner
  simp [ha, ho]

theorem resolveOwner_lookup (s1 : Session) (db : Db) (oid : Nat) (ow0 : OwnerRow)
    (ha : s1.added_pets ≠ []) (ho : s1.owner_id = some oid)
    (hfind : db.owners.find? (fun ow => ow.id == oid) = some ow0) :
    resolveOwner s1 db = some (ow0.id, s1, db) := by
  unfold resolveOwner
  simp [ha, ho, hfind]

/-! Step lemmas: one for each control path through the POST handler. -/

/-- A rejected form leaves everything unchanged. -/
theorem submit_invalid (f : Bool) (s : Session) (db : Db) (r : SubmitRequest)
    (hv : form_validate_app r = false) :
    submit f s db r = ⟨s, db, .formErrors⟩ := by
  unfold submit
  simp [hv]

/-- Incomplete pet data: the captured session is kept, nothing is
persisted. -/
theorem submit_incomplete (f : Bool) (s : Session) (db : Db) (r : SubmitRequest)
    (hv : form_validate_app r = true) (hc : appPetComplete r = false) :
    submit f s db r = ⟨captureOwner s r, db, .incomplete⟩ := by
  unfold submit
  simp [hv, hc]

/-- Duplicate pet number: rejected before any persistence step. -/
theorem submit_duplicate (f : Bool) (s : Session) (db : Db) (r : SubmitRequest)
    (hv : form_validate_app r = true) (hc : appPetComplete r = true)
    (hdup : r.current_pet_number ∈ (captureOwner s r).added_pets) :
    submit f s db r = ⟨captureOwner s r, db, .duplicate r.current_pet_number⟩ := by
  unfold submit
  simp [hv, hc, hdup]

/-- First dependent of a session whose snapshot is still empty: the
snapshot and total are captured, the Owner row is created, the Pet row is
appended, and the session resets in place when the declared total is
already reached. -/
theorem submit_create_none (s : Session) (db : Db) (r : SubmitRequest)
    (hv : form_validate_app r = true) (hc : appPetComplete r = true)
    (ha : s.added_pets = []) (ho : s.owner_data = none) :
    submit false s db r =
      (let ow : OwnerRow := ⟨db.nextOwnerId, r.name, r.email, r.phone, r.postal_code⟩
       let db2 : Db := ⟨db.owners ++ [ow],
         db.pets ++ [⟨db.nextPetId, r.pet_type.getD (""), r.sex.getD (""),
           r.age.getD 0, r.location_type.getD (""), r.microchipped,
           r.current_pet_number, db.nextOwnerId⟩],
         db.nextOwnerId + 1, db.nextPetId + 1⟩
       if (1 : Int) = r.num_pets then ⟨emptySession, db2, .complete⟩
       else
         ⟨⟨some ⟨r.name, r.email, r.phone, r.postal_code⟩, [r.current_pet_number],
           r.num_pets, some db.nextOwnerId⟩, db2, .added 1 r.num_pets⟩) := by
  obtain ⟨od0, ap0, t0, oid0⟩ := s
  have ha2 : ap0 = [] := ha
  have ho2 : od0 = none := ho
  subst ha2 ho2
  simp [submit, hv, hc, captureOwner, resolveOwner, petRowFor, emptySession]

/-- First dependent of a session that already holds an owner snapshot:
same as submit_create_none but the Owner row and the session keep the
snapshot taken earlier. -/
theorem submit_create_some (s : Session) (db : Db) (r : SubmitRequest)
    (od : OwnerData)
    (hv : form_validate_app r = true) (hc : appPetComplete r = true)
    (ha : s.added_pets = []) (ho : s.owner_data = some od) :
    submit false s db r =
      (let ow : OwnerRow := ⟨db.nextOwnerId, od.name, od.email, od.phone, od.postal_code⟩
       let db2 : Db := ⟨db.owners ++ [ow],
         db.pets ++ [⟨db.nextPetId, r.pet_type.getD (""), r.sex.getD (""),
           r.age.getD 0, r.location_type.getD (""), r.microchipped,
           r.current_pet_number, db.nextOwnerId⟩],
         db.nextOwnerId + 1, db.nextPetId + 1⟩
       if (1 : Int) = s.total_pets then ⟨emptySession, db2, .complete⟩
       else
         ⟨⟨some od, [r.current_pet_number], s.total_pets, some db.nextOwnerId⟩,
           db2, .added 1 s.total_pets⟩) := by
  obtain ⟨od0, ap0, t0, oid0⟩ := s
  have ha2 : ap0 = [] := ha
  have ho2 : od0 = some od := ho
  subst ha2 ho2
  simp [submit, hv, hc, captureOwner, resolveOwner, petRowFor, emptySession]

/-- A later dependent: the Owner recorded in the session is looked up and
the Pet row is linked to it; the session clears when the total is
reached. -/
theorem submit_mid (od : OwnerData) (l : List Int) (t : Int) (oid : Nat)
    (db : Db) (r : SubmitRequest) (ow0 : OwnerRow)
    (hv : form_validate_app r = true) (hc : appPetComplete r = true)
    (hl : l ≠ []) (hnd : r.current_pet_number ∉ l)
    (hfind : db.owners.find? (fun ow => ow.id == oid) = some ow0) :
    submit false (⟨some od, l, t, some oid⟩ : Session) db r =
      (let db2 : Db := { db with
         pets := db.pets ++ [⟨db.nextPetId, r.pet_type.getD (""), r.sex.getD (""),
           r.age.getD 0, r.location_type.getD (""), r.microchipped,
           r.current_pet_number, ow0.id⟩],
         nextPetId := db.nextPetId + 1 }
       if ((l.length + 1 : Nat) : Int) = t then ⟨emptySession, db2, .complete⟩
       else
         ⟨⟨some od, l ++ [r.current_pet_number], t, some oid⟩, db2,
           .added (l.length + 1) t⟩) := by
  simp [submit, hv, hc, captureOwner, resolveOwner, hl, hfind, hnd,
    petRowFor, emptySession]

/-! Reachability and the session/store invariant. -/

theorem petNumbersL_append (ps qs : List PetRow) (oid : Nat) :
    petNumbersL (ps ++ qs) oid = petNumbersL ps oid ++ petNumbersL qs oid := by
  simp [petNumbersL]

theorem petNumbersL_single (p : PetRow) (oid : Nat) :
    petNumbersL [p] oid = if p.owner_id = oid then [p.pet_number] else [] := by
  by_cases h : p.owner_id = oid <;> simp [petNumbersL, h]

theorem petNumbersL_eq_nil (ps : List PetRow) (oid : Nat)
    (h : ∀ p ∈ ps, p.owner_id ≠ oid) : petNumbersL ps oid = [] := by
  have : ps.filter (fun p => p.owner_id == oid) = [] := by
    rw [List.filter_eq_nil_iff]
    intro p hp
    simpa using h p hp
  simp [petNumbersL, this]

theorem inv_empty : Inv emptySession emptyDb := by
  constructor <;> simp [emptySession, emptyDb, petNumbersOf, petNumbersL]

theorem inv_reset (s : Session) (db : Db) (h : Inv s db) :
    Inv emptySession db :=
  ⟨by simp [emptySession], h.nodupDb, by simp [emptySession],
    by simp [emptySession], h.petsFresh, h.ownersFresh⟩

theorem inv_capture (s : Session) (db : Db) (r : SubmitRequest) (h : Inv s db) :
    Inv (captureOwner s r) db :=
  ⟨by rw [captureOwner_added]; exact h.nodupAdded,
    h.nodupDb,
    fun _ => captureOwner_isSome s r,
    by
      intro oid hne hoid
      rw [captureOwner_added] at hne ⊢
      rw [captureOwner_ownerId] at hoid
      exact h.linkSub oid hne hoid,
    h.petsFresh, h.ownersFresh⟩

theorem nodup_snoc (l : List Int) (a : Int) (h1 : l.Nodup) (h2 : a ∉ l) :
    (l ++ [a]).Nodup := by
  rw [List.nodup_append_comm]
  exact List.nodup_cons.mpr ⟨h2, h1⟩

/-- Reduction of submit on the persistence path hitting the injected
commit failure. -/
theorem submit_fault_main (s : Session) (db : Db) (r : SubmitRequest)
    (hv : form_validate_app r = true) (hc : appPetComplete r = true)
    (hdup : r.current_pet_number ∉ (captureOwner s r).added_pets) :
    submit true s db r =
      (match resolveOwner (captureOwner s r) db with
      | none => ⟨captureOwner s r, db, .dbError⟩
      | some (_, s2, _) => ⟨s2, db, .dbError⟩) := by
  unfold submit
  simp only [hv, if_true, hc, hdup, if_false, if_neg hdup]

/-- Reduction of a fault-free submit on the persistence path. -/
theorem submit_ok_main (s : Session) (db : Db) (r : SubmitRequest)
    (hv : form_validate_app r = true) (hc : appPetComplete r = true)
    (hdup : r.current_pet_number ∉ (captureOwner s r).added_pets) :
    submit false s db r =
      (match resolveOwner (captureOwner s r) db with
      | none => ⟨captureOwner s r, db, .dbError⟩
      | some (oid, s2, db1) =>
        let db2 := { db1 with pets := db1.pets ++ [petRowFor db1 r oid],
                              nextPetId := db1.nextPetId + 1 }
        let s3 := { s2 with
          added_pets := s2.added_pets ++ [r.current_pet_number] }
        if (s3.added_pets.length : Int) = s3.total_pets then
          ⟨emptySession, db2, .complete⟩
        else
          ⟨s3, db2, .added s3.added_pets.length s3.total_pets⟩) := by
  unfold submit
  simp only [hv, if_true, hc, hdup, if_false, if_neg hdup]
  cases resolveOwner (captureOwner s r) db with
  | none => rfl
  | some x => obtain ⟨oid, s2, db1⟩ := x; rfl

/-- Store facts preserved when the first Pet row of a freshly created
Owner is appended. -/
theorem dbfacts_create (db : Db) (od : OwnerData) (r : SubmitRequest)
    (hnodup : ∀ oid, (petNumbersOf db oid).Nodup)
    (hpf : ∀ p ∈ db.pets, p.owner_id < db.nextOwnerId)
    (hof : ∀ ow ∈ db.owners, ow.id < db.nextOwnerId) :
    ∀ db1 db2 : Db,
    db1 = { db with
      owners := db.owners ++
        [⟨db.nextOwnerId, od.name, od.email, od.phone, od.postal_code⟩],
      nextOwnerId := db.nextOwnerId + 1 } →
    db2 = { db1 with pets := db1.pets ++ [petRowFor db1 r db.nextOwnerId],
                     nextPetId := db1.nextPetId + 1 } →
    (∀ oid2, (petNumbersOf db2 oid2).Nodup) ∧
    (∀ p ∈ db2.pets, p.owner_id < db2.nextOwnerId) ∧
    (∀ ow ∈ db2.owners, ow.id < db2.nextOwnerId) ∧
    petNumbersOf db2 db.nextOwnerId = [r.current_pet_number] := by
  intro db1 db2 h1 h2
  subst h1 h2
  have hpetnil : petNumbersL db.pets db.nextOwnerId = [] := by
    apply petNumbersL_eq_nil
    intro p hp
    exact Nat.ne_of_lt (hpf p hp)
  refine ⟨?_, ?_, ?_, ?_⟩
  · intro oid2
    show (petNumbersL (db.pets ++ [petRowFor _ r db.nextOwnerId]) oid2).Nodup
    rw [petNumbersL_append, petNumbersL_single]
    by_cases hcase : db.nextOwnerId = oid2
    · subst hcase
      simp [hpetnil, petRowFor]
    · rw [if_neg (by simpa [petRowFor] using hcase)]
      simpa using hnodup oid2
  · intro p hp
    simp only [List.mem_append, List.mem_singleton] at hp
    rcases hp with hp | hp
    · exact Nat.lt_succ_of_lt (hpf p hp)
    · subst hp; simp [petRowFor]
  · intro ow how
    simp only [List.mem_append, List.mem_singleton] at how
    rcases how with how | how
    · exact Nat.lt_succ_of_lt (hof ow how)
    · subst how; simp
  · show petNumbersL (db.pets ++ [petRowFor _ r db.nextOwnerId]) db.nextOwnerId = _
    rw [petNumbersL_append, petNumbersL_single, hpetnil]
    simp [petRowFor]

/-- Store facts preserved when a Pet row is appended for an existing
Owner none of whose stored pet numbers equals the new one. -/
theorem dbfacts_lookup (db : Db) (r : SubmitRequest) (oid : Nat)
    (hnodup : ∀ oid2, (petNumbersOf db oid2).Nodup)
    (hpf : ∀ p ∈ db.pets, p.owner_id < db.nextOwnerId)
    (hof : ∀ ow ∈ db.owners, ow.id < db.nextOwnerId)
    (hoidlt : oid < db.nextOwnerId)
    (hnotin : r.current_pet_number ∉ petNumbersOf db oid) :
    ∀ db2 : Db,
    db2 = { db with pets := db.pets ++ [petRowFor db r oid],
                    nextPetId := db.nextPetId + 1 } →
    (∀ oid2, (petNumbersOf db2 oid2).Nodup) ∧
    (∀ p ∈ db2.pets, p.owner_id < db2.nextOwnerId) ∧
    (∀ ow ∈ db2.owners, ow.id < db2.nextOwnerId) ∧
    petNumbersOf db2 oid = petNumbersOf db oid ++ [r.current_pet_number] := by
  intro db2 h2
  subst h2
  refine ⟨?_, ?_, ?_, ?_⟩
  · intro oid2
    show (petNumbersL (db.pets ++ [petRowFor db r oid]) oid2).Nodup
    rw [petNumbersL_append, petNumbersL_single]
    by_cases hcase : oid = oid2
    · subst hcase
      rw [if_pos (by simp [petRowFor])]
      exact nodup_snoc _ _ (hnodup oid) (by simpa [petRowFor] using hnotin)
    · rw [if_neg (by simpa [petRowFor] using hcase)]
      simpa using hnodup oid2
  · intro p hp
    simp only [List.mem_append, List.mem_singleton] at hp
    rcases hp with hp | hp
    · exact hpf p hp
    · subst hp; simpa [petRowFor] using hoidlt
  · exact hof
  · show petNumbersL (db.pets ++ [petRowFor db r oid]) oid = _
    rw [petNumbersL_append, petNumbersL_single]
    simp [petRowFor, petNumbersOf, petNumbersL]

theorem inv_submit (f : Bool) (s : Session) (db : Db) (r : SubmitRequest)
    (h : Inv s db) : Inv (submit f s db r).sess (submit f s db r).db := by
  by_cases hv : form_validate_app r = true
  case neg =>
    rw [submit_invalid f s db r (by simpa using hv)]
    exact h
  by_cases hc : appPetComplete r = true
  case neg =>
    rw [submit_incomplete f s db r hv (by simpa using hc)]
    exact inv_capture s db r h
  by_cases hdup : r.current_pet_number ∈ (captureOwner s r).added_pets
  case pos =>
    rw [submit_duplicate f s db r hv hc hdup]
    exact inv_capture s db r h
  cases f with
  | true =>
    rw [submit_fault_main s db r hv hc hdup]
    rw [captureOwner_added] at hdup
    cases hres : resolveOwner (captureOwner s r) db with
    | none => exact inv_capture s db r h
    | some x =>
      obtain ⟨oid, s2, db1⟩ := x
      dsimp only
      rcases resolveOwner_spec _ _ _ _ _ hres with
        ⟨hemp, od, hod, hoid, hs2, hdb1⟩ | ⟨hne, hs2, hdb1, hoid, ow0, how0, howid⟩
      · have hsemp : s.added_pets = [] := by
          rw [← captureOwner_added s r]; exact hemp
        subst hs2
        refine ⟨?_, h.nodupDb, ?_, ?_, h.petsFresh, h.ownersFresh⟩
        · simp [captureOwner_added, hsemp]
        · simp [captureOwner_added, hsemp]
        · simp [captureOwner_added, hsemp]
      · subst hs2
        exact inv_capture s db r h
  | false =>
    rw [submit_ok_main s db r hv hc hdup]
    rw [captureOwner_added] at hdup
    cases hres : resolveOwner (captureOwner s r) db with
    | none => exact inv_capture s db r h
    | some x =>
      obtain ⟨oid, s2, db1⟩ := x
      dsimp only
      rcases resolveOwner_spec _ _ _ _ _ hres with
        ⟨hemp, od, hod, hoid, hs2, hdb1⟩ | ⟨hne, hs2, hdb1, hoid, ow0, how0, howid⟩
      · -- first dependent of the session: Owner created and flushed
        have hsemp : s.added_pets = [] := by
          rw [← captureOwner_added s r]; exact hemp
        subst hoid hs2 hdb1
        obtain ⟨hf1, hf2, hf3, hf4⟩ :=
          dbfacts_create db od r h.nodupDb h.petsFresh h.ownersFresh _ _ rfl rfl
        split
        · exact ⟨by simp [emptySession], hf1, by simp [emptySession],
            by simp [emptySession], hf2, hf3⟩
        · refine ⟨?_, hf1, ?_, ?_, hf2, hf3⟩
          · simp [captureOwner_added, hsemp]
          · intro _
            simp [captureOwner_isSome]
          · intro oid2 _ hoid2
            simp only [Session.owner_id] at hoid2
            have hoi : oid2 = db.nextOwnerId := by simpa using hoid2.symm
            subst hoi
            intro m hm
            rw [hf4] at hm
            simp only [List.mem_singleton] at hm
            subst hm
            simp [captureOwner_added, hsemp]
      · -- later dependent of the session: Owner looked up
        have hsne : s.added_pets ≠ [] := by
          rw [← captureOwner_added s r]; exact hne
        have hsoid : s.owner_id = some oid := by
          rw [← captureOwner_ownerId s r]; exact hoid
        have hsub := h.linkSub oid hsne hsoid
        have hoidlt : oid < db.nextOwnerId := by
          rw [← howid]; exact h.ownersFresh ow0 how0
        have hnotin : r.current_pet_number ∉ petNumbersOf db oid := by
          intro hmem
          exact hdup (hsub _ hmem)
        obtain ⟨hf1, hf2, hf3, hf4⟩ :=
          dbfacts_lookup db r oid h.nodupDb h.petsFresh h.ownersFresh
            hoidlt hnotin _ rfl
        subst hs2 hdb1
        split
        · exact ⟨by simp [emptySession], hf1, by simp [emptySession],
            by simp [emptySession], hf2, hf3⟩
        · refine ⟨?_, hf1, ?_, ?_, hf2, hf3⟩
          · simp only [Session.added_pets, captureOwner_added]
            exact nodup_snoc _ _ h.nodupAdded hdup
          · intro _
            simp [captureOwner_isSome]
          · intro oid2 _ hoid2
            simp only [Session.owner_id, captureOwner_ownerId, hsoid] at hoid2
            have hoi : oid2 = oid := by simpa using hoid2.symm
            subst hoi
            intro m hm
            rw [hf4] at hm
            simp only [List.mem_append, List.mem_singleton] at hm
            simp only [Session.added_pets, captureOwner_added, List.mem_append,
              List.mem_singleton]
            rcases hm with hm | hm
            · exact Or.inl (hsub _ hm)
            · exact Or.inr hm


theorem inv_reachable (s : Session) (db : Db) (h : Reachable s db) : Inv s db := by
  induction h with
  | init => exact inv_empty
  | step f r hprev ih => exact inv_submit f _ _ r ih
  | reset hprev ih => exact inv_reset _ _ ih

/-! Complete registration runs. -/

theorem runSubmits_single (s : Session) (db : Db) (r : SubmitRequest) :
    runSubmits s db [r] = submit false s db r := rfl

theorem runSubmits_cons (s : Session) (db : Db) (r r2 : SubmitRequest)
    (rest : List SubmitRequest) :
    runSubmits s db (r :: r2 :: rest) =
      runSubmits (submit false s db r).sess (submit false s db r).db (r2 :: rest) := rfl

/-- Auxiliary induction: from a mid-session state whose recorded Owner is
present in the store, fault-free submits of the remaining dependents with
fresh pairwise-distinct pet numbers finish the registration and append
exactly one Pet row per submit, all linked to the recorded Owner. -/
theorem runMid (rs : List SubmitRequest) :
    ∀ (l : List Int) (db : Db) (od : OwnerData) (t : Int) (oid : Nat) (ow0 : OwnerRow),
    rs ≠ [] → l ≠ [] →
    (∀ r ∈ rs, form_validate_app r = true ∧ appPetComplete r = true) →
    (l ++ rs.map (fun r => r.current_pet_number)).Nodup →
    ((l.length : Int) + rs.length = t) →
    db.owners.find? (fun w => w.id == oid) = some ow0 →
    ∃ dbF, runSubmits (⟨some od, l, t, some oid⟩ : Session) db rs =
        ⟨emptySession, dbF, .complete⟩ ∧
      dbF.owners = db.owners ∧
      (dbF.pets.filter (fun p => p.owner_id == oid)).length
        = (db.pets.filter (fun p => p.owner_id == oid)).length + rs.length ∧
      dbF.pets.length = db.pets.length + rs.length := by
  induction rs with
  | nil =>
    intro l db od t oid ow0 hne
    exact absurd rfl hne
  | cons r rest ih =>
    intro l db od t oid ow0 _ hl hval hnd hlen hfind
    have hvr := (hval r (by simp)).1
    have hcr := (hval r (by simp)).2
    have howid : ow0.id = oid := by simpa using List.find?_some hfind
    have hndr : r.current_pet_number ∉ l := by
      rw [List.nodup_append] at hnd
      intro hmem
      exact hnd.2.2 hmem (by simp)
    cases rest with
    | nil =>
      have hlen1 : ((l.length + 1 : Nat) : Int) = t := by
        push_cast [List.length_cons, List.length_nil] at hlen ⊢
        omega
      rw [runSubmits_single, submit_mid od l t oid db r ow0 hvr hcr hl hndr hfind]
      dsimp only
      rw [if_pos hlen1]
      refine ⟨_, rfl, rfl, ?_, by simp⟩
      simp [List.filter_append, howid]
    | cons r2 rest2 =>
      have hlenne : ¬ ((l.length + 1 : Nat) : Int) = t := by
        push_cast [List.length_cons, List.length_nil] at hlen ⊢
        omega
      rw [runSubmits_cons, submit_mid od l t oid db r ow0 hvr hcr hl hndr hfind]
      dsimp only
      rw [if_neg hlenne]
      have hnd2 : ((l ++ [r.current_pet_number]) ++
          (r2 :: rest2).map (fun r => r.current_pet_number)).Nodup := by
        have hre : (l ++ [r.current_pet_number]) ++
            (r2 :: rest2).map (fun r => r.current_pet_number) =
            l ++ (r :: r2 :: rest2).map (fun r => r.current_pet_number) := by
          simp
        rw [hre]
        exact hnd
      have hlen2 : (((l ++ [r.current_pet_number]).length : Nat) : Int) +
          ((r2 :: rest2).length : Nat) = t := by
        push_cast [List.length_cons, List.length_nil, List.length_append] at hlen ⊢
        omega
      obtain ⟨dbF, he, ho2, hc2, hl2⟩ :=
        ih (l ++ [r.current_pet_number])
          { db with
              pets := db.pets ++ [⟨db.nextPetId, r.pet_type.getD (""),
                r.sex.getD (""), r.age.getD 0, r.location_type.getD (""),
                r.microchipped, r.current_pet_number, ow0.id⟩],
              nextPetId := db.nextPetId + 1 }
          od t oid ow0 (by simp) (by simp)
          (fun r3 hr3 => hval r3 (by simp [hr3]))
          hnd2 hlen2 hfind
      have hc3 : (dbF.pets.filter (fun p => p.owner_id == oid)).length
          = ((db.pets ++ [(⟨db.nextPetId, r.pet_type.getD (""),
              r.sex.getD (""), r.age.getD 0, r.location_type.getD (""),
              r.microchipped, r.current_pet_number,
              ow0.id⟩ : PetRow)]).filter (fun p => p.owner_id == oid)).length
            + (r2 :: rest2).length := hc2
      have hl3 : dbF.pets.length
          = (db.pets ++ [(⟨db.nextPetId, r.pet_type.getD (""),
              r.sex.getD (""), r.age.getD 0, r.location_type.getD (""),
              r.microchipped, r.current_pet_number, ow0.id⟩ : PetRow)]).length
            + (r2 :: rest2).length := hl2
      refine ⟨dbF, he, ho2, ?_, ?_⟩
      · simp only [List.filter_append, List.length_append, howid,
          List.filter_cons, List.filter_nil, beq_self_eq_true, if_true,
          List.length_cons, List.length_nil] at hc3 ⊢
        omega
      · simp only [List.length_append, List.length_cons,
          List.length_nil] at hl3 ⊢
        omega

/-! Claim theorems. -/

/-- C1: for every n in 1..5 and every sequence of n fault-free submits in
one session, each with complete valid owner and dependent fields, the
declared total n on the first call, and pairwise-distinct pet numbers
covering 1..n, the n-th submit leaves the session empty, signals
registration complete, and the store gains exactly one Owner — built
from the first call's owner fields — with exactly n Pet rows linked to
it and no other row. -/
theorem registration_run_completes
    (d0 : Db) (n : Nat) (r1 : SubmitRequest) (rest : List SubmitRequest)
    (hn1 : 1 ≤ n) (hn5 : n ≤ 5)
    (hlen : (r1 :: rest).length = n)
    (hvalid : ∀ r ∈ r1 :: rest,
      form_validate_app r = true ∧ appPetComplete r = true)
    (htot : r1.num_pets = (n : Int))
    (hperm : ((r1 :: rest).map (fun r => r.current_pet_number)).Perm
      ((List.range n).map (fun i : Nat => ((i : Int) + 1))))
    (hpets : ∀ p ∈ d0.pets, p.owner_id ≠ d0.nextOwnerId)
    (howners : ∀ ow ∈ d0.owners, ow.id ≠ d0.nextOwnerId) :
    ∃ dbF, runSubmits emptySession d0 (r1 :: rest) =
        ⟨emptySession, dbF, .complete⟩ ∧
      dbF.owners = d0.owners ++
        [⟨d0.nextOwnerId, r1.name, r1.email, r1.phone, r1.postal_code⟩] ∧
      (dbF.pets.filter (fun p => p.owner_id == d0.nextOwnerId)).length = n ∧
      dbF.pets.length = d0.pets.length + n := by
  have hv1 := (hvalid r1 (by simp)).1
  have hc1 := (hvalid r1 (by simp)).2
  have hinj : Function.Injective (fun i : Nat => ((i : Int) + 1)) := by
    intro a b hab
    simpa using hab
  have htargetnd : ((List.range n).map (fun i : Nat => ((i : Int) + 1))).Nodup :=
    @List.Nodup.map Nat Int (List.range n) (fun i : Nat => ((i : Int) + 1)) hinj
      (List.nodup_range n)
  have hnd : ((r1 :: rest).map (fun r => r.current_pet_number)).Nodup :=
    (hperm.nodup_iff).mpr htargetnd
  have hfilnil : d0.pets.filter (fun p => p.owner_id == d0.nextOwnerId) = [] := by
    rw [List.filter_eq_nil_iff]
    intro p hp
    simpa using hpets p hp
  cases rest with
  | nil =>
    have hn : n = 1 := by simpa using hlen.symm
    subst hn
    rw [runSubmits_single, submit_create_none emptySession d0 r1 hv1 hc1 rfl rfl]
    dsimp only
    rw [if_pos (by simp [htot])]
    refine ⟨_, rfl, rfl, ?_, by simp⟩
    simp [List.filter_append, hfilnil]
  | cons r2 rest2 =>
    have hn2 : 2 ≤ n := by
      simp only [List.length_cons] at hlen
      omega
    have hone : ¬ ((1 : Int) = r1.num_pets) := by
      rw [htot]
      omega
    rw [runSubmits_cons, submit_create_none emptySession d0 r1 hv1 hc1 rfl rfl]
    dsimp only
    rw [if_neg hone]
    dsimp only
    have hfind : (d0.owners ++ [(⟨d0.nextOwnerId, r1.name, r1.email, r1.phone,
        r1.postal_code⟩ : OwnerRow)]).find?
          (fun w => w.id == d0.nextOwnerId) =
        some ⟨d0.nextOwnerId, r1.name, r1.email, r1.phone, r1.postal_code⟩ := by
      rw [List.find?_append]
      have h1 : d0.owners.find? (fun w => w.id == d0.nextOwnerId) = none := by
        rw [List.find?_eq_none]
        intro x hx
        simpa using howners x hx
      rw [h1]
      simp [List.find?]
    have hlen2 : (([r1.current_pet_number].length : Nat) : Int) +
        ((r2 :: rest2).length : Nat) = r1.num_pets := by
      rw [htot]
      simp only [List.length_cons, List.length_nil] at hlen ⊢
      push_cast
      omega
    obtain ⟨dbF, he, ho2, hc2, hl2⟩ :=
      runMid (r2 :: rest2) [r1.current_pet_number]
        ⟨d0.owners ++ [⟨d0.nextOwnerId, r1.name, r1.email, r1.phone,
            r1.postal_code⟩],
          d0.pets ++ [⟨d0.nextPetId, r1.pet_type.getD (""), r1.sex.getD (""),
            r1.age.getD 0, r1.location_type.getD (""), r1.microchipped,
            r1.current_pet_number, d0.nextOwnerId⟩],
          d0.nextOwnerId + 1, d0.nextPetId + 1⟩
        ⟨r1.name, r1.email, r1.phone, r1.postal_code⟩
        r1.num_pets d0.nextOwnerId
        ⟨d0.nextOwnerId, r1.name, r1.email, r1.phone, r1.postal_code⟩
        (by simp) (by simp)
        (fun r3 hr3 => hvalid r3 (by simp [hr3]))
        (by simpa using hnd)
        hlen2 hfind
    have hc3 : (dbF.pets.filter (fun p => p.owner_id == d0.nextOwnerId)).length
        = ((d0.pets ++ [(⟨d0.nextPetId, r1.pet_type.getD (""), r1.sex.getD (""),
            r1.age.getD 0, r1.location_type.getD (""), r1.microchipped,
            r1.current_pet_number,
            d0.nextOwnerId⟩ : PetRow)]).filter
              (fun p => p.owner_id == d0.nextOwnerId)).length
          + (r2 :: rest2).length := hc2
    have hl3 : dbF.pets.length
        = (d0.pets ++ [(⟨d0.nextPetId, r1.pet_type.getD (""), r1.sex.getD (""),
            r1.age.getD 0, r1.location_type.getD (""), r1.microchipped,
            r1.current_pet_number, d0.nextOwnerId⟩ : PetRow)]).length
          + (r2 :: rest2).length := hl2
    refine ⟨dbF, he, ho2, ?_, ?_⟩
    · simp only [List.filter_append, List.length_append, hfilnil,
        List.filter_cons, List.filter_nil, beq_self_eq_true, if_true,
        List.length_cons, List.length_nil] at hc3 ⊢
      simp only [List.length_cons] at hlen
      omega
    · simp only [List.length_append, List.length_cons, List.length_nil] at hl3 ⊢
      simp only [List.length_cons] at hlen
      omega

/-- Witness for registration_run_completes: a fresh store, total 2, pet
numbers 1 then 2. -/
theorem registration_run_completes_witness :
    ∃ dbF, runSubmits emptySession emptyDb [reqValid 2 1, reqValid 2 2] =
        ⟨emptySession, dbF, .complete⟩ ∧
      dbF.owners = emptyDb.owners ++
        [⟨emptyDb.nextOwnerId, (reqValid 2 1).name, (reqValid 2 1).email,
          (reqValid 2 1).phone, (reqValid 2 1).postal_code⟩] ∧
      (dbF.pets.filter (fun p => p.owner_id == emptyDb.nextOwnerId)).length = 2 ∧
      dbF.pets.length = emptyDb.pets.length + 2 :=
  registration_run_completes emptyDb 2 (reqValid 2 1) [reqValid 2 2]
    (by decide) (by decide) (by decide) (by decide) (by decide) (by decide)
    (by decide) (by decide)

/-- C2 counterexample: a commit failure on the very first submit rolls
the store back but leaves the owner snapshot, the declared total and the
recorded owner id in the session, so the session differs from its value
before the call. -/
theorem persistence_fault_mutates_session_cex :
    (submit true emptySession emptyDb (reqValid 2 1)).db = emptyDb ∧
    (submit true emptySession emptyDb (reqValid 2 1)).res = .dbError ∧
    (submit true emptySession emptyDb (reqValid 2 1)).sess ≠ emptySession := by
  refine ⟨rfl, rfl, ?_⟩
  decide

/-- C2 amended: a persistence failure at commit leaves the store exactly
as before the call (neither the Owner nor the Pet row is committed), is
reported as a generic failure, and leaves the committed set unchanged —
but the owner snapshot, declared total and recorded owner id written
earlier in the same call stay in the session. -/
theorem persistence_fault_atomic_db (s : Session) (db : Db) (r : SubmitRequest)
    (hv : form_validate_app r = true) (hc : appPetComplete r = true)
    (hdup : r.current_pet_number ∉ s.added_pets) :
    (submit true s db r).db = db ∧
    (submit true s db r).sess.added_pets = s.added_pets ∧
    (submit true s db r).res = .dbError := by
  have hdup2 : r.current_pet_number ∉ (captureOwner s r).added_pets := by
    rw [captureOwner_added]; exact hdup
  rw [submit_fault_main s db r hv hc hdup2]
  cases hres : resolveOwner (captureOwner s r) db with
  | none => exact ⟨rfl, captureOwner_added s r, rfl⟩
  | some x =>
    obtain ⟨oid, s2, db1⟩ := x
    dsimp only
    rcases resolveOwner_spec _ _ _ _ _ hres with
      ⟨hemp, od, hod, hoid, hs2, hdb1⟩ | ⟨hne, hs2, hdb1, hoid, ow0, how0, howid⟩
    · refine ⟨rfl, ?_, rfl⟩
      rw [hs2]
      simpa using captureOwner_added s r
    · refine ⟨rfl, ?_, rfl⟩
      rw [hs2]
      exact captureOwner_added s r

/-- Witness for persistence_fault_atomic_db on the first submit of a
fresh session. -/
theorem persistence_fault_atomic_db_witness :
    (submit true emptySession emptyDb (reqValid 2 1)).db = emptyDb ∧
    (submit true emptySession emptyDb (reqValid 2 1)).sess.added_pets =
      emptySession.added_pets ∧
    (submit true emptySession emptyDb (reqValid 2 1)).res = .dbError :=
  persistence_fault_atomic_db emptySession emptyDb (reqValid 2 1)
    (by decide) (by decide) (by decide)

/-- C3: in every reachable session state whose committed set contains the
submitted pet number, a valid and complete submit is rejected with the
duplicate error, nothing is written to the store, and the session is
unchanged. -/
theorem duplicate_sequence_rejected (f : Bool) (s : Session) (db : Db)
    (r : SubmitRequest) (hr : Reachable s db)
    (hv : form_validate_app r = true) (hc : appPetComplete r = true)
    (hmem : r.current_pet_number ∈ s.added_pets) :
    submit f s db r = ⟨s, db, .duplicate r.current_pet_number⟩ := by
  have hinv := inv_reachable s db hr
  have hne : s.added_pets ≠ [] := by
    intro hnil
    rw [hnil] at hmem
    simp at hmem
  have hcap : captureOwner s r = s :=
    captureOwner_of_some s r (hinv.ownerCaptured hne)
  rw [submit_duplicate f s db r hv hc (by rw [hcap]; exact hmem), hcap]

/-- Witness for duplicate_sequence_rejected: resubmitting pet number 1
after it has been committed. -/
theorem duplicate_sequence_rejected_witness :
    submit false (submit false emptySession emptyDb (reqValid 2 1)).sess
        (submit false emptySession emptyDb (reqValid 2 1)).db (reqValid 2 1) =
      ⟨(submit false emptySession emptyDb (reqValid 2 1)).sess,
        (submit false emptySession emptyDb (reqValid 2 1)).db,
        .duplicate 1⟩ :=
  duplicate_sequence_rejected false _ _ (reqValid 2 1)
    (Reachable.step false (reqValid 2 1) Reachable.init)
    (by decide) (by decide) (by decide)

/-- C4 counterexample: with the location selector submitted at its empty
placeholder value, the submit still proceeds to persistence and writes a
Pet row — the dependent fields are not all non-empty, refuting the
only-if direction of the claim. -/
theorem empty_location_persisted_cex :
    reqEmptyLocation.location_type = some ("") ∧
    optStrTruthy reqEmptyLocation.location_type = false ∧
    (submit false emptySession emptyDb reqEmptyLocation).res = .added 1 2 ∧
    (submit false emptySession emptyDb reqEmptyLocation).db.pets.length = 1 :=
  ⟨rfl, rfl, rfl, rfl⟩

/-- C4 amended: a submit proceeds to persistence iff pet_type and sex are
non-empty and non-null while age and the location category are merely
non-null — an empty location category string passes the check and is
persisted.  When the check fails the submit is rejected with the
incomplete message, no Pet row is created and the committed set is
unchanged. -/
theorem pet_completeness_gate (f : Bool) (s : Session) (db : Db)
    (r : SubmitRequest) (hv : form_validate_app r = true) :
    (appPetComplete r = false →
      (submit f s db r).db = db ∧
      (submit f s db r).sess.added_pets = s.added_pets ∧
      (submit f s db r).res = .incomplete) ∧
    (optStrTruthy r.pet_type = true → optStrTruthy r.sex = true →
      r.age.isSome = true → r.location_type.isSome = true →
      s.added_pets = [] →
      (submit false s db r).db.pets.length = db.pets.length + 1) := by
  constructor
  · intro hc
    rw [submit_incomplete f s db r hv hc]
    exact ⟨rfl, captureOwner_added s r, rfl⟩
  · intro h1 h2 h3 h4 ha
    have hc : appPetComplete r = true := by
      simp [appPetComplete, h1, h2, h3, h4]
    cases hod : s.owner_data with
    | none =>
      rw [submit_create_none s db r hv hc ha hod]
      dsimp only
      split <;> simp
    | some od =>
      rw [submit_create_some s db r od hv hc ha hod]
      dsimp only
      split <;> simp

/-- Witness for pet_completeness_gate: a submit with no pet data is
rejected as incomplete; a complete one appends one Pet row. -/
theorem pet_completeness_gate_witness :
    (submit false emptySession emptyDb reqIncomplete).res = .incomplete ∧
    (submit false emptySession emptyDb (reqValid 2 1)).db.pets.length =
      emptyDb.pets.length + 1 :=
  ⟨((pet_completeness_gate false emptySession emptyDb reqIncomplete
      (by decide)).1 (by decide)).2.2,
    (pet_completeness_gate false emptySession emptyDb (reqValid 2 1)
      (by decide)).2 (by decide) (by decide) (by decide) (by decide) rfl⟩

/-- C5 counterexample: a reachable session with declared total 2 whose
committed set contains pet number 7 — the handler never checks the
submitted pet number against the declared range [1, total]. -/
theorem committed_out_of_range_cex :
    Reachable (submit false emptySession emptyDb (reqValid 2 7)).sess
        (submit false emptySession emptyDb (reqValid 2 7)).db ∧
    (7 : Int) ∈
      (submit false emptySession emptyDb (reqValid 2 7)).sess.added_pets ∧
    (submit false emptySession emptyDb (reqValid 2 7)).sess.total_pets = 2 ∧
    ¬ ((7 : Int) ≤
      (submit false emptySession emptyDb (reqValid 2 7)).sess.total_pets) := by
  refine ⟨Reachable.step false (reqValid 2 7) Reachable.init, ?_, ?_, ?_⟩
  · decide
  · decide
  · decide

/-- C5 amended: in every reachable state of a registration session the
committed sequence numbers are pairwise distinct and each owner's stored
pet numbers are pairwise distinct; membership of committed numbers in
the range [1, declared total] is not enforced by the code. -/
theorem committed_numbers_unique (s : Session) (db : Db)
    (h : Reachable s db) :
    s.added_pets.Nodup ∧ ∀ oid, (petNumbersOf db oid).Nodup :=
  ⟨(inv_reachable s db h).nodupAdded, (inv_reachable s db h).nodupDb⟩

/-- Witness for committed_numbers_unique after one committed pet. -/
theorem committed_numbers_unique_witness :
    (submit false emptySession emptyDb (reqValid 2 1)).sess.added_pets.Nodup ∧
    (petNumbersOf (submit false emptySession emptyDb (reqValid 2 1)).db 1).Nodup :=
  ⟨(committed_numbers_unique _ _
      (Reachable.step false (reqValid 2 1) Reachable.init)).1,
    (committed_numbers_unique _ _
      (Reachable.step false (reqValid 2 1) Reachable.init)).2 1⟩

/-- C6: the Owner row is created exactly once per session — on the first
submit passing the completeness and duplicate checks, while the committed
set is empty — from the session snapshot (or, when no snapshot exists
yet, the snapshot captured from this request), with its generated id
recorded in the session unless the registration completes in the same
call; every later successful submit creates no Owner and links its Pet
row to the recorded owner id. -/
theorem owner_created_once (s : Session) (db : Db) (r : SubmitRequest)
    (hv : form_validate_app r = true) (hc : appPetComplete r = true) :
    (s.added_pets = [] →
      (submit false s db r).db.owners = db.owners ++
        [⟨db.nextOwnerId,
          (s.owner_data.getD ⟨r.name, r.email, r.phone, r.postal_code⟩).name,
          (s.owner_data.getD ⟨r.name, r.email, r.phone, r.postal_code⟩).email,
          (s.owner_data.getD ⟨r.name, r.email, r.phone, r.postal_code⟩).phone,
          (s.owner_data.getD ⟨r.name, r.email, r.phone,
            r.postal_code⟩).postal_code⟩] ∧
      (submit false s db r).db.pets = db.pets ++
        [⟨db.nextPetId, r.pet_type.getD (""), r.sex.getD (""), r.age.getD 0,
          r.location_type.getD (""), r.microchipped, r.current_pet_number,
          db.nextOwnerId⟩] ∧
      ((submit false s db r).res = .complete ∨
        (submit false s db r).sess.owner_id = some db.nextOwnerId)) ∧
    (∀ oid ow0, s.added_pets ≠ [] → s.owner_id = some oid →
      r.current_pet_number ∉ s.added_pets →
      db.owners.find? (fun w => w.id == oid) = some ow0 →
      (submit false s db r).db.owners = db.owners ∧
      (submit false s db r).db.pets = db.pets ++
        [⟨db.nextPetId, r.pet_type.getD (""), r.sex.getD (""), r.age.getD 0,
          r.location_type.getD (""), r.microchipped, r.current_pet_number,
          oid⟩]) := by
  constructor
  · intro ha
    cases hod : s.owner_data with
    | none =>
      rw [submit_create_none s db r hv hc ha hod]
      dsimp only
      split
      · exact ⟨rfl, rfl, Or.inl rfl⟩
      · exact ⟨rfl, rfl, Or.inr rfl⟩
    | some od =>
      rw [submit_create_some s db r od hv hc ha hod]
      dsimp only
      split
      · exact ⟨rfl, rfl, Or.inl rfl⟩
      · exact ⟨rfl, rfl, Or.inr rfl⟩
  · intro oid ow0 hne hoid hdup hfind
    have hdup2 : r.current_pet_number ∉ (captureOwner s r).added_pets := by
      rw [captureOwner_added]; exact hdup
    have hres := resolveOwner_lookup (captureOwner s r) db oid ow0
      (by rw [captureOwner_added]; exact hne)
      (by rw [captureOwner_ownerId]; exact hoid) hfind
    have howid : ow0.id = oid := by simpa using List.find?_some hfind
    rw [submit_ok_main s db r hv hc hdup2, hres]
    dsimp only
    rw [howid]
    split
    · exact ⟨rfl, rfl⟩
    · exact ⟨rfl, rfl⟩

/-- Witness for owner_created_once: the first submit creates the Owner,
the second one creates none and links its Pet to owner id 1. -/
theorem owner_created_once_witness :
    (submit false emptySession emptyDb (reqValid 2 1)).db.owners =
      emptyDb.owners ++ [⟨1, "Jo", "a@b.co", "0123456789", "ABC"⟩] ∧
    (submit false (submit false emptySession emptyDb (reqValid 2 1)).sess
        (submit false emptySession emptyDb (reqValid 2 1)).db
        (reqValid 2 2)).db.owners =
      (submit false emptySession emptyDb (reqValid 2 1)).db.owners := by
  constructor
  · exact ((owner_created_once emptySession emptyDb (reqValid 2 1)
      (by decide) (by decide)).1 rfl).1
  · exact ((owner_created_once
      (submit false emptySession emptyDb (reqValid 2 1)).sess
      (submit false emptySession emptyDb (reqValid 2 1)).db (reqValid 2 2)
      (by decide) (by decide)).2 1 ⟨1, "Jo", "a@b.co", "0123456789", "ABC"⟩
      (by decide) (by decide) (by decide) (by decide)).1

/-- C7 (code_bug evidence): with valid owner fields and the
number-of-pets selector at 0, the form defined inline in app.py
validates and the session stores 0 as the declared total, while the
num_pets field of forms/pet_owner_form.py (DataRequired) rejects 0. -/
theorem zero_total_stored_app :
    form_validate_app reqZeroTotal = true ∧
    (submit false emptySession emptyDb reqZeroTotal).sess.total_pets = 0 ∧
    (submit false emptySession emptyDb
      reqZeroTotal).sess.owner_data.isSome = true ∧
    num_pets_valid_pet_owner_form 0 = false :=
  ⟨rfl, rfl, rfl, rfl⟩

/-- C8 (code_bug evidence): deleting the Owner of a Pet row under the
relationship declared in app.py (no cascade option) does not cascade —
the NOT NULL foreign key makes the delete fail — while the relationship
declared in models/pet_owner_model.py deletes the Pet rows with the
Owner. -/
theorem owner_delete_no_cascade_app :
    appPetsCascadeDeleteOrphan = false ∧
    deleteOwner appPetsCascadeDeleteOrphan dbOnePet 1 = .error ∧
    deleteOwner modelPetsCascadeDeleteOrphan dbOnePet 1 =
      .ok ⟨[], [], 2, 2⟩ := by
  refine ⟨rfl, rfl, ?_⟩
  decide

/-- C9: when the session holds no owner snapshot and a validated
submission has incomplete dependent fields, the submit still writes the
owner snapshot and declared total into the session before rejecting,
leaving the store, the committed set and the recorded owner id
unchanged. -/
theorem incomplete_reject_still_captures_owner (f : Bool) (s : Session)
    (db : Db) (r : SubmitRequest) (ho : s.owner_data = none)
    (hv : form_validate_app r = true) (hc : appPetComplete r = false) :
    submit f s db r =
      ⟨⟨some ⟨r.name, r.email, r.phone, r.postal_code⟩, s.added_pets,
        r.num_pets, s.owner_id⟩, db, .incomplete⟩ := by
  rw [submit_incomplete f s db r hv hc, captureOwner_of_none s r ho]

/-- Witness for incomplete_reject_still_captures_owner on a fresh
session. -/
theorem incomplete_reject_still_captures_owner_witness :
    submit false emptySession emptyDb reqIncomplete =
      ⟨⟨some ⟨"Jo", "a@b.co", "0123456789", "ABC"⟩, [], 2, none⟩, emptyDb,
        .incomplete⟩ :=
  incomplete_reject_still_captures_owner false emptySession emptyDb
    reqIncomplete rfl (by decide) (by decide)

/-- C10: with valid pet_type, sex and location and age equal to 0,
PetOwnerForm.validate_pet_information returns False and get_pet_data
returns the empty dictionary — 0 is falsy in the all-or-nothing
truthiness check — while the inline completeness check in app.py accepts
the same submission. -/
theorem age_zero_validator_divergence :
    validate_pet_information reqAgeZero = false ∧
    get_pet_data reqAgeZero = none ∧
    appPetComplete reqAgeZero = true :=
  ⟨rfl, rfl, rfl⟩

end PetApp
